import Mathlib

/-!
A shallow embedding of the sports-api repository: a fetch → parse → normalize
→ merge → sort → persist pipeline over a JSON event store, together with
theorems checking its specification.

Host primitives that live outside the JavaScript sources — `new Date(string)`
parsing, `Intl.DateTimeFormat`, `String.prototype.localeCompare`, `JSON.parse`
— are passed to the embedded definitions as explicit function parameters, the
way the scripts themselves receive them from the runtime.  Concrete executable
instances of each (an ECMA-262 ISO timestamp reader, an `America/Los_Angeles`
instant formatter, byte-wise string comparison, a finite JSON oracle) are
defined below for use in concrete runs.
-/

namespace SportsApi

/-! ### JavaScript primitive values -/

/-- A JavaScript primitive as it can appear in an upstream score field. -/
inductive JsPrim where
  | undef
  | null
  | str (s : String)
  | num (n : Int)
deriving DecidableEq

/-- JavaScript `ToString` on primitives.  Scores in the payloads are integral,
so only integral numbers are modelled. -/
def jsToString : JsPrim → String
  | .undef => "undefined"
  | .null => "null"
  | .str s => s
  | .num n => toString n

/-- `parseInt(s, 10)`: skip leading white space, read an optional sign and a
leading run of decimal digits; `none` models the `NaN` result when no digit
is found. -/
def parseIntDecimal (s : String) : Option Int :=
  let cs := s.data.dropWhile (fun c => c.isWhitespace)
  let signed : Bool × List Char :=
    match cs with
    | '-' :: rest => (true, rest)
    | '+' :: rest => (false, rest)
    | _ => (false, cs)
  let digits := signed.2.takeWhile (fun c => c.isDigit)
  if digits.isEmpty then none
  else
    let n : Nat := digits.foldl (fun acc c => acc * 10 + (c.toNat - 48)) 0
    some (if signed.1 then -(n : Int) else (n : Int))

/-- `parseInt(v, 10) || 0`, as used for every score field: the parsed value
when it is a number other than zero, and `0` when `parseInt` returns `NaN`
(modelled by `none`), `0` or `-0`. -/
def jsParseIntOr0 (v : JsPrim) : Int :=
  match parseIntDecimal (jsToString v) with
  | none => 0
  | some n => n

/-- `x || d` for a possibly-absent string `x`: `undefined` and `""` are
falsy. -/
def jsOrStr (v : Option String) (d : String) : String :=
  match v with
  | none => d
  | some s => if s = "" then d else s

/-- Truthiness test `!x` for a possibly-absent string: `undefined` and `""`
are falsy. -/
def jsFalsyStr (v : Option String) : Bool :=
  match v with
  | none => true
  | some s => s = ""

/-! ### Timestamp formatting (`formatEventDateTime` in `src/utilities.js`,
with an identical copy in `script.js`) -/

/-- Does a reversed character list start with (i.e. does the string end with)
a numeric time-zone offset `±hh:mm` or `±hhmm`? -/
def isTzOffsetTail : List Char → Bool
  | d4 :: d3 :: ':' :: d2 :: d1 :: c :: _ =>
    d4.isDigit && d3.isDigit && d2.isDigit && d1.isDigit && (c = '+' || c = '-')
  | d4 :: d3 :: d2 :: d1 :: c :: _ =>
    d4.isDigit && d3.isDigit && d2.isDigit && d1.isDigit && (c = '+' || c = '-')
  | _ => false

/-- The regular-expression test `/[zZ]|[+\-]\d\x7b2\x7d:?\d\x7b2\x7d$/` from
`formatEventDateTime`: a `z` or `Z` anywhere in the string, or a trailing
numeric offset. -/
def hasOffsetJs (s : String) : Bool :=
  s.data.any (fun c => c = 'z' || c = 'Z') || isTzOffsetTail s.data.reverse

/-- `formatEventDateTime(isoTimestamp, timeZone)` for the fixed default zone.
`dateParse` models `new Date(string).getTime()`, with `none` for an invalid
date; `intlFmt` models the two `Intl.DateTimeFormat` calls, which are total
on valid instants.  Calling `Intl`'s `format` on an invalid date throws a
`RangeError`, modelled by the `.error` result.  The input is `none` when the
caller passes `undefined`. -/
def formatEventDateTime (dateParse : String → Option Int)
    (intlFmt : Int → String × String) (isoTimestamp : Option String) :
    Except String (String × String) :=
  if jsFalsyStr isoTimestamp then .ok ("", "")
  else
    let s := isoTimestamp.getD ""
    let iso := if hasOffsetJs s then s else s ++ "Z"
    match dateParse iso with
    | none => .error "RangeError: Invalid time value"
    | some instant => .ok (intlFmt instant)

/-! ### Concrete host instances: calendar arithmetic, an ISO timestamp
reader, and an `America/Los_Angeles` instant formatter -/

/-- Civil date `(year, month, day)` of day number `z` (days since
1970-01-01), by the standard era-based algorithm. -/
def civilFromDays (z : Int) : Int × Int × Int :=
  let z := z + 719468
  let era := Int.fdiv z 146097
  let doe := z - era * 146097
  let yoe :=
    Int.fdiv (doe - Int.fdiv doe 1460 + Int.fdiv doe 36524 - Int.fdiv doe 146096) 365
  let y := yoe + era * 400
  let doy := doe - (365 * yoe + Int.fdiv yoe 4 - Int.fdiv yoe 100)
  let mp := Int.fdiv (5 * doy + 2) 153
  let d := doy - Int.fdiv (153 * mp + 2) 5 + 1
  let m := mp + (if mp < 10 then 3 else -9)
  (y + (if m ≤ 2 then 1 else 0), m, d)

/-- Day number (days since 1970-01-01) of the civil date `(y, m, d)`. -/
def daysFromCivil (y m d : Int) : Int :=
  let y2 := y - (if m ≤ 2 then 1 else 0)
  let era := Int.fdiv y2 400
  let yoe := y2 - era * 400
  let mp := Int.emod (m + 9) 12
  let doy := Int.fdiv (153 * mp + 2) 5 + (d - 1)
  let doe := yoe * 365 + Int.fdiv yoe 4 - Int.fdiv yoe 100 + doy
  era * 146097 + doe - 719468

/-- Gregorian leap-year test. -/
def isLeapYear (y : Int) : Bool :=
  (Int.emod y 4 = 0 && Int.emod y 100 ≠ 0) || Int.emod y 400 = 0

/-- Number of days in month `m` of year `y`. -/
def daysInMonth (y m : Int) : Int :=
  if m = 2 then (if isLeapYear y then 29 else 28)
  else if m = 4 || m = 6 || m = 9 || m = 11 then 30
  else 31

/-- Numeric value of a decimal digit character. -/
def digitVal (c : Char) : Int := (c.toNat : Int) - 48

/-- UTC epoch milliseconds of a civil date and time of day. -/
def msOfUtc (y mo d hh mi ss ms : Int) : Int :=
  (daysFromCivil y mo d * 86400 + hh * 3600 + mi * 60 + ss) * 1000 + ms

/-- Milliseconds denoted by the leading digits of a time fraction (at most
the first three digits are significant, as in `new Date`). -/
def fracMillis : List Char → Int
  | [] => 0
  | [a] => 100 * digitVal a
  | [a, b] => 100 * digitVal a + 10 * digitVal b
  | a :: b :: c :: _ => 100 * digitVal a + 10 * digitVal b + digitVal c

/-- Parse a trailing UTC designator or numeric offset (`Z`, `±hh:mm` or
`±hhmm`), returning the offset in minutes. -/
def parseTzSuffix : List Char → Option Int
  | ['Z'] => some 0
  | [c, h1, h2, ':', m1, m2] =>
    if (c = '+' || c = '-') && h1.isDigit && h2.isDigit && m1.isDigit && m2.isDigit then
      let hh := 10 * digitVal h1 + digitVal h2
      let mm := 10 * digitVal m1 + digitVal m2
      if hh ≤ 23 && mm ≤ 59 then
        some ((if c = '-' then -1 else 1) * (hh * 60 + mm))
      else none
    else none
  | [c, h1, h2, m1, m2] =>
    if (c = '+' || c = '-') && h1.isDigit && h2.isDigit && m1.isDigit && m2.isDigit then
      let hh := 10 * digitVal h1 + digitVal h2
      let mm := 10 * digitVal m1 + digitVal m2
      if hh ≤ 23 && mm ≤ 59 then
        some ((if c = '-' then -1 else 1) * (hh * 60 + mm))
      else none
    else none
  | _ => none

/-- Parse `hh:mm[:ss[.fff]]` followed by a mandatory offset suffix, for the
date `(y, mo, d)`. -/
def parseTimeAndOffset (y mo d : Int) : List Char → Option Int
  | h1 :: h2 :: ':' :: mi1 :: mi2 :: rest =>
    if h1.isDigit && h2.isDigit && mi1.isDigit && mi2.isDigit then
      let hh := 10 * digitVal h1 + digitVal h2
      let mi := 10 * digitVal mi1 + digitVal mi2
      let finish : Int → Int → Int → List Char → Option Int := fun ss ms hhUsed tz =>
        if (hh ≤ 23 || (hh = 24 && mi = 0 && ss = 0 && ms = 0)) && mi ≤ 59 && ss ≤ 59 then
          (parseTzSuffix tz).map (fun off =>
            msOfUtc y mo d hhUsed mi ss ms - off * 60000)
        else none
      match rest with
      | ':' :: s1 :: s2 :: rest2 =>
        if s1.isDigit && s2.isDigit then
          let ss := 10 * digitVal s1 + digitVal s2
          match rest2 with
          | '.' :: fracRest =>
            let fracDigits := fracRest.takeWhile (fun c => c.isDigit)
            let tz := fracRest.dropWhile (fun c => c.isDigit)
            if fracDigits.isEmpty then none
            else finish ss (fracMillis fracDigits) hh tz
          | tz => finish ss 0 hh tz
        else none
      | tz => finish 0 0 hh tz
    else none
  | _ => none

/-- A concrete instance of `new Date(string).getTime()`: the ECMA-262 Date
Time String Format `YYYY-MM-DD[THH:MM[:SS[.fff]]]` with an explicit trailing
`Z` or `±hh:mm`/`±hhmm` offset.  Every string the embedded pipeline hands to
`new Date` either carries such an offset, contains a stray `z`/`Z` (not ISO,
hence invalid), or is not an ISO timestamp at all, so implementation-defined
fallback parsing of other forms is modelled as `none` (an invalid date). -/
def parseIsoTimestamp (s : String) : Option Int :=
  match s.data with
  | y1 :: y2 :: y3 :: y4 :: '-' :: mo1 :: mo2 :: '-' :: d1 :: d2 :: rest =>
    if y1.isDigit && y2.isDigit && y3.isDigit && y4.isDigit
        && mo1.isDigit && mo2.isDigit && d1.isDigit && d2.isDigit then
      let y := 1000 * digitVal y1 + 100 * digitVal y2 + 10 * digitVal y3 + digitVal y4
      let mo := 10 * digitVal mo1 + digitVal mo2
      let d := 10 * digitVal d1 + digitVal d2
      if 1 ≤ mo && mo ≤ 12 && 1 ≤ d && d ≤ daysInMonth y mo then
        match rest with
        | [] => none
        | 'T' :: timeRest => parseTimeAndOffset y mo d timeRest
        | tz => (parseTzSuffix tz).map (fun off => msOfUtc y mo d 0 0 0 0 - off * 60000)
      else none
    else none
  | _ => none

/-- Day of week of day number `z`, with `0` for Sunday (1970-01-01 was a
Thursday). -/
def dayOfWeek (z : Int) : Int := Int.emod (z + 4) 7

/-- UTC instant at which daylight saving time starts in `America/Los_Angeles`
in year `y` (second Sunday in March, 02:00 standard time = 10:00 UTC), per
the rule in force since 2007. -/
def laDstStart (y : Int) : Int :=
  let mar1 := daysFromCivil y 3 1
  let firstSun := mar1 + Int.emod (7 - dayOfWeek mar1) 7
  (firstSun + 7) * 86400000 + 10 * 3600000

/-- UTC instant at which daylight saving time ends in `America/Los_Angeles`
in year `y` (first Sunday in November, 02:00 daylight time = 09:00 UTC). -/
def laDstEnd (y : Int) : Int :=
  let nov1 := daysFromCivil y 11 1
  let firstSun := nov1 + Int.emod (7 - dayOfWeek nov1) 7
  firstSun * 86400000 + 9 * 3600000

/-- UTC offset of `America/Los_Angeles` (in milliseconds) at UTC instant
`t`. -/
def laUtcOffsetMs (t : Int) : Int :=
  let approxDays := Int.fdiv (t - 8 * 3600000) 86400000
  let y := (civilFromDays approxDays).1
  if laDstStart y ≤ t && t < laDstEnd y then -7 * 3600000 else -8 * 3600000

/-- English month abbreviation used by `en-US` short month formatting. -/
def monthAbbrev : Int → String
  | 1 => "Jan"
  | 2 => "Feb"
  | 3 => "Mar"
  | 4 => "Apr"
  | 5 => "May"
  | 6 => "Jun"
  | 7 => "Jul"
  | 8 => "Aug"
  | 9 => "Sep"
  | 10 => "Oct"
  | 11 => "Nov"
  | 12 => "Dec"
  | _ => ""

/-- Two-digit decimal rendering of a small nonnegative integer. -/
def pad2 (n : Int) : String := if n < 10 then "0" ++ toString n else toString n

/-- A concrete instance of the two `Intl.DateTimeFormat` calls in
`formatEventDateTime` (`en-US` locale, `America/Los_Angeles` zone): the date
as `"Mon DD YYYY"` (comma already removed, as in the source) and the time as
`"hh:mm AM/PM"`. -/
def formatInstantLA (t : Int) : String × String :=
  let locMs := t + laUtcOffsetMs t
  let days := Int.fdiv locMs 86400000
  let msOfDay := locMs - days * 86400000
  let ymd := civilFromDays days
  let hh := Int.fdiv msOfDay 3600000
  let mi := Int.fdiv (msOfDay - hh * 3600000) 60000
  let h12 := if Int.emod hh 12 = 0 then 12 else Int.emod hh 12
  let ampm := if hh < 12 then "AM" else "PM"
  (monthAbbrev ymd.2.1 ++ " " ++ pad2 ymd.2.2 ++ " " ++ toString ymd.1,
   pad2 h12 ++ ":" ++ pad2 mi ++ " " ++ ampm)

/-- Lexicographic three-way comparison of character lists by code point. -/
def charListCmp : List Char → List Char → Int
  | [], [] => 0
  | [], _ :: _ => -1
  | _ :: _, [] => 1
  | a :: as, b :: bs =>
    if a.toNat < b.toNat then -1
    else if b.toNat < a.toNat then 1
    else charListCmp as bs

/-- A concrete instance of `String.prototype.localeCompare`: code-point-wise
comparison.  On the uppercase league identifiers and the fixed-format date
and time strings this pipeline produces, `en-US` locale comparison and
code-point-wise comparison order strings identically. -/
def lcAscii (s t : String) : Int := charListCmp s.data t.data

/-! ### Raw upstream ESPN scoreboard payloads, as the per-league parsing
classes in `src/parsers/` receive them.  `Option` models a property that may
be `undefined`/`null` on a malformed entry. -/

/-- The `team` sub-object of a competitor. -/
structure RawTeamInfo where
  id : Option String
  name : Option String
  logo : Option String
  location : Option String
  abbreviation : Option String
deriving DecidableEq

/-- One entry of `competitions[0].competitors`. -/
structure RawCompetitor where
  team : Option RawTeamInfo
  score : JsPrim
deriving DecidableEq

/-- One entry of `event.competitions`. -/
structure RawCompetition where
  competitors : Option (List RawCompetitor)
deriving DecidableEq

/-- `event.status.type`. -/
structure RawStatusType where
  name : Option String
  detail : Option String
deriving DecidableEq

/-- `event.status`. -/
structure RawStatus where
  type : Option RawStatusType
deriving DecidableEq

/-- One entry of `response.events`; a list entry that is itself `null` or
`undefined` is modelled by `none` at the use site. -/
structure RawEspnEvent where
  id : Option String
  date : Option String
  competitions : Option (List RawCompetition)
  status : Option RawStatus
deriving DecidableEq

/-- The top-level scoreboard response body. -/
structure EspnResponse where
  events : Option (List (Option RawEspnEvent))
deriving DecidableEq

/-! ### Normalized event records, one shape per parsing class -/

/-- A participant as `NFLParser.formatEvent` emits it. -/
structure NflTeam where
  id : Option String
  name : Option String
  badge : Option String
  score : Int
deriving DecidableEq

/-- The normalized event emitted by `NFLParser.formatEvent`. -/
structure NflEvent where
  id : Option String
  date : String
  time : String
  status : String
  league : String
  leagueBadge : String
  team_one : NflTeam
  team_two : NflTeam
deriving DecidableEq

/-- A participant as `NBAParser.formatEvent` emits it. -/
structure NbaTeam where
  id : Option String
  badge : Option String
  location : Option String
  name : Option String
  score : Int
deriving DecidableEq

/-- The normalized event emitted by `NBAParser.formatEvent`. -/
structure NbaEvent where
  id : Option String
  date : String
  time : String
  status : String
  status_type : String
  league : String
  league_badge : String
  team_one : NbaTeam
  team_two : NbaTeam
deriving DecidableEq

/-- A participant as `MLBParser.formatEvent` emits it. -/
structure MlbTeam where
  id : Option String
  abbreviation : Option String
  badge : Option String
  location : Option String
  name : Option String
  score : Int
deriving DecidableEq

/-- The normalized event emitted by `MLBParser.formatEvent`. -/
structure MlbEvent where
  id : Option String
  date : String
  time : String
  status : String
  status_type : String
  league : String
  league_badge : String
  team_one : MlbTeam
  team_two : MlbTeam
deriving DecidableEq

/-! ### The per-league parsing classes.  Property accesses on a missing
object throw a `TypeError` in JavaScript; those accesses are modelled by
`.error` results, in the source's evaluation order. -/

/-- The display status every `formatEvent` variant computes from
`event.status.type`: the small fixed top-level categories first, otherwise
the detailed phase string. -/
def espnDisplayStatus (ty : RawStatusType) : String :=
  if ty.name = some "STATUS_SCHEDULED" then "Scheduled"
  else if ty.name = some "STATUS_FINAL" then "Final"
  else if ty.name = some "STATUS_CANCELED" then "Canceled"
  else if ty.name = some "STATUS_IN_PROGRESS" then jsOrStr ty.detail "In Progress"
  else jsOrStr ty.detail ""

/-- The body of `NFLParser.formatEvent` past the guard, for the first
competition.  A `TypeError` thrown by an unguarded property access, or a
`RangeError` from the timestamp formatter, propagates as `.error`; the
explicit error matches are the `Except` bind of the throwing computation. -/
def nflFormatEventCore (dateParse : String → Option Int) (intlFmt : Int → String × String)
    (ev : RawEspnEvent) (competition : RawCompetition) : Except String (Option NflEvent) :=
  match formatEventDateTime dateParse intlFmt ev.date with
  | .error msg => .error msg
  | .ok dt =>
    match competition.competitors with
    | none => .error "TypeError: cannot read 0 of undefined"
    | some competitors =>
      match ev.status with
      | none => .error "TypeError: cannot read type of undefined"
      | some st =>
        match st.type with
        | none => .error "TypeError: cannot read detail of undefined"
        | some ty =>
          match competitors[0]? with
          | none => .error "TypeError: cannot read team of undefined"
          | some c1 =>
            match c1.team with
            | none => .error "TypeError: cannot read id of undefined"
            | some t1 =>
              match competitors[1]? with
              | none => .error "TypeError: cannot read team of undefined"
              | some c2 =>
                match c2.team with
                | none => .error "TypeError: cannot read id of undefined"
                | some t2 =>
                  .ok (some {
                    id := ev.id
                    date := dt.1
                    time := dt.2
                    status := espnDisplayStatus ty
                    league := "NFL"
                    leagueBadge := "https://a.espncdn.com/i/teamlogos/leagues/500-dark/nfl.png"
                    team_one := { id := t1.id, name := t1.name, badge := t1.logo,
                                  score := jsParseIntOr0 c1.score }
                    team_two := { id := t2.id, name := t2.name, badge := t2.logo,
                                  score := jsParseIntOr0 c2.score } })

/-- `NFLParser.formatEvent(event)`.  A falsy entry, an entry without
`competitions`, or one with an empty `competitions` array is dropped
(`.ok none`); afterwards the competitor, team and status sub-objects are
accessed unguarded. -/
def nflFormatEvent (dateParse : String → Option Int) (intlFmt : Int → String × String)
    (event : Option RawEspnEvent) : Except String (Option NflEvent) :=
  match event with
  | none => .ok none
  | some ev =>
    match ev.competitions with
    | none => .ok none
    | some [] => .ok none
    | some (competition :: _) => nflFormatEventCore dateParse intlFmt ev competition

/-- `NFLParser.parse(response)`: map `formatEvent` over a truthy `events`
property and drop the `null` results; anything else yields `[]`. -/
def nflParse (dateParse : String → Option Int) (intlFmt : Int → String × String)
    (response : Option EspnResponse) : Except String (List NflEvent) :=
  match response with
  | none => .ok []
  | some r =>
    match r.events with
    | none => .ok []
    | some evs =>
      (evs.mapM (nflFormatEvent dateParse intlFmt)).map (fun l => l.filterMap id)

/-- The body of `NBAParser.formatEvent` past the guard, for the first
competition; error propagation as in `nflFormatEventCore`. -/
def nbaFormatEventCore (dateParse : String → Option Int) (intlFmt : Int → String × String)
    (ev : RawEspnEvent) (competition : RawCompetition) : Except String (Option NbaEvent) :=
  match formatEventDateTime dateParse intlFmt ev.date with
  | .error msg => .error msg
  | .ok dt =>
    match competition.competitors with
    | none => .error "TypeError: cannot read 0 of undefined"
    | some competitors =>
      match ev.status with
      | none => .error "TypeError: cannot read type of undefined"
      | some st =>
        match st.type with
        | none => .error "TypeError: cannot read detail of undefined"
        | some ty =>
          match competitors[0]? with
          | none => .error "TypeError: cannot read team of undefined"
          | some c1 =>
            match c1.team with
            | none => .error "TypeError: cannot read id of undefined"
            | some t1 =>
              match competitors[1]? with
              | none => .error "TypeError: cannot read team of undefined"
              | some c2 =>
                match c2.team with
                | none => .error "TypeError: cannot read id of undefined"
                | some t2 =>
                  .ok (some {
                    id := ev.id
                    date := dt.1
                    time := dt.2
                    status := espnDisplayStatus ty
                    status_type := jsOrStr ty.name ""
                    league := "NBA"
                    league_badge := "https://a.espncdn.com/i/teamlogos/leagues/500/nba.png"
                    team_one := { id := t1.id, badge := t1.logo, location := t1.location,
                                  name := t1.name, score := jsParseIntOr0 c1.score }
                    team_two := { id := t2.id, badge := t2.logo, location := t2.location,
                                  name := t2.name, score := jsParseIntOr0 c2.score } })

/-- `NBAParser.formatEvent(event)`: the NFL guard logic with the NBA
record shape. -/
def nbaFormatEvent (dateParse : String → Option Int) (intlFmt : Int → String × String)
    (event : Option RawEspnEvent) : Except String (Option NbaEvent) :=
  match event with
  | none => .ok none
  | some ev =>
    match ev.competitions with
    | none => .ok none
    | some [] => .ok none
    | some (competition :: _) => nbaFormatEventCore dateParse intlFmt ev competition

/-- `NBAParser.parse(response)`: map `formatEvent` over an array-valued
`events` property and drop the `null` results; anything else yields `[]`. -/
def nbaParse (dateParse : String → Option Int) (intlFmt : Int → String × String)
    (response : Option EspnResponse) : Except String (List NbaEvent) :=
  match response with
  | none => .ok []
  | some r =>
    match r.events with
    | none => .ok []
    | some evs =>
      (evs.mapM (nbaFormatEvent dateParse intlFmt)).map (fun l => l.filterMap id)

/-- The body of `MLBParser.formatEvent` past the guard, for the first
competition; error propagation as in `nflFormatEventCore`. -/
def mlbFormatEventCore (dateParse : String → Option Int) (intlFmt : Int → String × String)
    (ev : RawEspnEvent) (competition : RawCompetition) : Except String (Option MlbEvent) :=
  match formatEventDateTime dateParse intlFmt ev.date with
  | .error msg => .error msg
  | .ok dt =>
    match competition.competitors with
    | none => .error "TypeError: cannot read 0 of undefined"
    | some competitors =>
      match ev.status with
      | none => .error "TypeError: cannot read type of undefined"
      | some st =>
        match st.type with
        | none => .error "TypeError: cannot read detail of undefined"
        | some ty =>
          match competitors[0]? with
          | none => .error "TypeError: cannot read team of undefined"
          | some c1 =>
            match c1.team with
            | none => .error "TypeError: cannot read id of undefined"
            | some t1 =>
              match competitors[1]? with
              | none => .error "TypeError: cannot read team of undefined"
              | some c2 =>
                match c2.team with
                | none => .error "TypeError: cannot read id of undefined"
                | some t2 =>
                  .ok (some {
                    id := ev.id
                    date := dt.1
                    time := dt.2
                    status := espnDisplayStatus ty
                    status_type := jsOrStr ty.name ""
                    league := "MLB"
                    league_badge := "https://a.espncdn.com/i/teamlogos/leagues/500/mlb.png"
                    team_one := { id := t1.id, abbreviation := t1.abbreviation,
                                  badge := t1.logo, location := t1.location,
                                  name := t1.name, score := jsParseIntOr0 c1.score }
                    team_two := { id := t2.id, abbreviation := t2.abbreviation,
                                  badge := t2.logo, location := t2.location,
                                  name := t2.name, score := jsParseIntOr0 c2.score } })

/-- `MLBParser.formatEvent(event)`: the NFL guard logic with the MLB
record shape. -/
def mlbFormatEvent (dateParse : String → Option Int) (intlFmt : Int → String × String)
    (event : Option RawEspnEvent) : Except String (Option MlbEvent) :=
  match event with
  | none => .ok none
  | some ev =>
    match ev.competitions with
    | none => .ok none
    | some [] => .ok none
    | some (competition :: _) => mlbFormatEventCore dateParse intlFmt ev competition

/-- `MLBParser.parse(response)`: map `formatEvent` over an array-valued
`events` property and drop the `null` results; anything else yields `[]`. -/
def mlbParse (dateParse : String → Option Int) (intlFmt : Int → String × String)
    (response : Option EspnResponse) : Except String (List MlbEvent) :=
  match response with
  | none => .ok []
  | some r =>
    match r.events with
    | none => .ok []
    | some evs =>
      (evs.mapM (mlbFormatEvent dateParse intlFmt)).map (fun l => l.filterMap id)

/-! ### The SportsDB day-windowed variant (`script.js`): status vocabulary
tables and `formatEventData` -/

/-- `LEAGUE_STATUS_MAP.MLB`. -/
def MLB_STATUS : List (String × String) :=
  [("NS", "Not Started"), ("IN1", "Inning 1"), ("IN2", "Inning 2"),
   ("IN3", "Inning 3"), ("IN4", "Inning 4"), ("IN5", "Inning 5"),
   ("IN6", "Inning 6"), ("IN7", "Inning 7"), ("IN8", "Inning 8"),
   ("IN9", "Inning 9"), ("POST", "Postponed"), ("CANC", "Cancelled"),
   ("INTR", "Interrupted"), ("ABD", "Abandoned"), ("FT", "Finished")]

/-- `LEAGUE_STATUS_MAP.NBA`. -/
def NBA_STATUS : List (String × String) :=
  [("NS", "Not Started"), ("Q1", "Quarter 1 (In Play)"), ("Q2", "Quarter 2 (In Play)"),
   ("Q3", "Quarter 3 (In Play)"), ("Q4", "Quarter 4 (In Play)"),
   ("OT", "Over Time (In Play)"), ("BT", "Break Time (In Play)"),
   ("HT", "Halftime (In Play)"), ("FT", "Game Finished"), ("AOT", "After Over Time"),
   ("POST", "Game Postponed"), ("CANC", "Game Cancelled"), ("SUSP", "Game Suspended"),
   ("AWD", "Game Awarded"), ("ABD", "Game Abandoned")]

/-- `LEAGUE_STATUS_MAP.NFL`. -/
def NFL_STATUS : List (String × String) :=
  [("NS", "Not Started"), ("Q1", "1st Quarter"), ("Q2", "2nd Quarter"),
   ("Q3", "3rd Quarter"), ("Q4", "4th Quarter"), ("OT", "Overtime"),
   ("HT", "Halftime"), ("FT", "Finished"), ("AOT", "After Over Time"),
   ("CANC", "Cancelled"), ("PST", "Postponed")]

/-- `LEAGUE_STATUS_MAP` keyed by league identifier. -/
def leagueStatusMap : String → Option (List (String × String))
  | "MLB" => some MLB_STATUS
  | "NBA" => some NBA_STATUS
  | "NFL" => some NFL_STATUS
  | _ => none

/-- A raw SportsDB `eventsday.php` event.  String fields other than the
timestamp are modelled as always present (no claim exercises an absent one);
the timestamp may be `undefined` and the scores may be any primitive. -/
structure RawSdbEvent where
  idEvent : String
  strTimestamp : Option String
  strStatus : String
  strLeagueBadge : String
  idAwayTeam : String
  strAwayTeam : String
  strAwayTeamBadge : String
  intAwayScore : JsPrim
  idHomeTeam : String
  strHomeTeam : String
  strHomeTeamBadge : String
  intHomeScore : JsPrim
deriving DecidableEq

/-- A participant of the `script.js` event record. -/
structure SdbTeam where
  id : String
  name : String
  badge : String
  score : Int
deriving DecidableEq

/-- The event record `script.js` persists. -/
structure SdbEvent where
  id : String
  date : String
  status : String
  time : String
  league : String
  leagueBadge : String
  away : SdbTeam
  home : SdbTeam
deriving DecidableEq

/-- `formatEventData(event, leagueId)` from `script.js`.  The status lookup
`(LEAGUE_STATUS_MAP[leagueId] && LEAGUE_STATUS_MAP[leagueId][event.strStatus])`
falls back to the raw upstream status when the league table or the entry is
missing (or the looked-up value is falsy); the result can only fail through
`formatEventDateTime`. -/
def formatEventData (dateParse : String → Option Int) (intlFmt : Int → String × String)
    (event : RawSdbEvent) (leagueId : String) : Except String SdbEvent := do
  let dt ← formatEventDateTime dateParse intlFmt event.strTimestamp
  let statusString :=
    match (leagueStatusMap leagueId).bind (fun m => m.lookup event.strStatus) with
    | some s => if s = "" then event.strStatus else s
    | none => event.strStatus
  .ok {
    id := event.idEvent
    date := dt.1
    status := statusString
    time := dt.2
    league := leagueId
    leagueBadge := event.strLeagueBadge
    away := { id := event.idAwayTeam, name := event.strAwayTeam,
              badge := event.strAwayTeamBadge, score := jsParseIntOr0 event.intAwayScore }
    home := { id := event.idHomeTeam, name := event.strHomeTeam,
              badge := event.strHomeTeamBadge, score := jsParseIntOr0 event.intHomeScore } }

/-! ### The event store: sorting, the two implemented merge policies, and
the persisted file.  The JavaScript store code is duck-typed — it reads only
the `league`, `id`, `date` and `time` properties — so the embedded
operations are polymorphic in the event type, taking those projections as
arguments. -/

/-- The comparator body of `sortEvents` (identical in all three scripts):
leagues first, then dates, then times, each compared via `localeCompare`
(`sc`). -/
def eventCompare (sc : String → String → Int) (league date time : α → String)
    (a b : α) : Int :=
  if league a ≠ league b then sc (league a) (league b)
  else if date a ≠ date b then sc (date a) (date b)
  else sc (time a) (time b)

/-- `comparator(a, b) <= 0`: the sort may place `a` before `b`. -/
def eventLe (sc : String → String → Int) (league date time : α → String)
    (a b : α) : Prop :=
  eventCompare sc league date time a b ≤ 0

instance eventLeDecidable (sc : String → String → Int) (league date time : α → String) :
    DecidableRel (eventLe sc league date time) :=
  fun a b => inferInstanceAs (Decidable (eventCompare sc league date time a b ≤ 0))

/-- `sortEvents(events)`: a stable ascending sort by the comparator.
`Array.prototype.sort` with a consistent comparator is stable (ES2019), and
a stable sort under a total preorder is unique, so insertion sort computes
the same list the scripts do. -/
def sortEvents (sc : String → String → Int) (league date time : α → String)
    (events : List α) : List α :=
  events.insertionSort (eventLe sc league date time)

/-- The replace-policy merge of `script.js` and the NFL-only script:
`events.filter(event => event.league !== leagueId)` then `push(...fresh)`. -/
def mergeReplace (league : α → String) (leagueId : String)
    (events fresh : List α) : List α :=
  events.filter (fun e => league e != leagueId) ++ fresh

/-- One step of the upsert loop of the upsert-and-expire script: overwrite
the first existing event sharing the new event's `id` (`findIndex` matches on
`id` alone, regardless of league), or append. -/
def upsertOne (id : α → String) (events : List α) (newEvent : α) : List α :=
  match events.findIdx? (fun e => id e == id newEvent) with
  | some i => events.set i newEvent
  | none => events ++ [newEvent]

/-- The `results.forEach(...)` upsert loop. -/
def upsertEvents (id : α → String) (events fresh : List α) : List α :=
  fresh.foldl (upsertOne id) events

/-- `/^\d\x7b1,2\x7d:\d\x7b2\x7d$/.test(time)`. -/
def isHhMm (time : String) : Bool :=
  match time.data with
  | [h, ':', m1, m2] => h.isDigit && m1.isDigit && m2.isDigit
  | [h1, h2, ':', m1, m2] => h1.isDigit && h2.isDigit && m1.isDigit && m2.isDigit
  | _ => false

/-- `parseEventDate(date, time)` from the upsert-and-expire script: normalize
`HH:MM` to `HH:MM:SS`, try ISO parsing of `date + "T" + time + "Z"` (the
normative ECMA-262 path, `parseIsoTimestamp`), then fall back to the
implementation-defined locale parsing of `date + " " + time`, modelled by the
`localeParse` parameter; `none` models the `null` result. -/
def parseEventDate (localeParse : String → Option Int) (date : String)
    (time : Option String) : Option Int :=
  let t := time.getD "00:00:00"
  let normalizedTime := if isHhMm t then t ++ ":00" else t
  match parseIsoTimestamp (date ++ "T" ++ normalizedTime ++ "Z") with
  | some v => some v
  | none => localeParse (date ++ " " ++ normalizedTime)

/-- The retention predicate of the upsert-and-expire script, applied to every
event of every league: keep events with a falsy or unparseable date, drop
events older than one trailing week. -/
def keepEvent (localeParse : String → Option Int) (now : Int)
    (date time : String) : Bool :=
  if date = "" then true
  else
    match parseEventDate localeParse date (some time) with
    | none => true
    | some t => t ≥ now - 7 * 24 * 60 * 60 * 1000

/-- The merge of the upsert-and-expire script: upsert each fresh event by
`id`, then filter the whole document through the retention predicate. -/
def mergeUpsertExpire (localeParse : String → Option Int) (now : Int)
    (id date time : α → String) (events fresh : List α) : List α :=
  (upsertEvents id events fresh).filter
    (fun e => keepEvent localeParse now (date e) (time e))

/-- A persisted event as the store operations see it: `payload` stands for
whatever other serialized fields an event carries, which the store code never
inspects. -/
structure StoredEvent where
  league : String
  id : String
  date : String
  time : String
  payload : String
deriving DecidableEq

/-! ### The persisted JSON document -/

/-- Hexadecimal digit character. -/
def hexDigit (n : Nat) : Char := if n < 10 then Char.ofNat (48 + n) else Char.ofNat (87 + n)

/-- JSON string escaping as performed by `JSON.stringify`. -/
def jsonEscapeChar (c : Char) : String :=
  if c = '\x22' then "\x5c\x22"
  else if c = '\x5c' then "\x5c\x5c"
  else if c = '\x0a' then "\x5cn"
  else if c = '\x0d' then "\x5cr"
  else if c = '\x09' then "\x5ct"
  else if c = '\x08' then "\x5cb"
  else if c = '\x0c' then "\x5cf"
  else if c.toNat < 32 then
    "\x5cu00" ++ String.singleton (hexDigit (c.toNat / 16)) ++
      String.singleton (hexDigit (c.toNat % 16))
  else String.singleton c

/-- A JSON string literal. -/
def jsonStr (s : String) : String :=
  "\x22" ++ String.join (s.data.map jsonEscapeChar) ++ "\x22"

/-- `JSON.stringify` of a `script.js` participant, in insertion order. -/
def serializeSdbTeam (t : SdbTeam) : String :=
  "\x7b\x22id\x22:" ++ jsonStr t.id ++ ",\x22name\x22:" ++ jsonStr t.name ++
    ",\x22badge\x22:" ++ jsonStr t.badge ++ ",\x22score\x22:" ++ toString t.score ++ "\x7d"

/-- `JSON.stringify` of a `script.js` event, in insertion order. -/
def serializeSdbEvent (e : SdbEvent) : String :=
  "\x7b\x22id\x22:" ++ jsonStr e.id ++ ",\x22date\x22:" ++ jsonStr e.date ++
    ",\x22status\x22:" ++ jsonStr e.status ++ ",\x22time\x22:" ++ jsonStr e.time ++
    ",\x22league\x22:" ++ jsonStr e.league ++ ",\x22leagueBadge\x22:" ++ jsonStr e.leagueBadge ++
    ",\x22away\x22:" ++ serializeSdbTeam e.away ++ ",\x22home\x22:" ++
    serializeSdbTeam e.home ++ "\x7d"

/-- `JSON.stringify` of the whole document. -/
def serializeSdbDocument (evs : List SdbEvent) : String :=
  "\x7b\x22events\x22:[" ++ String.intercalate "," (evs.map serializeSdbEvent) ++ "]\x7d"

/-- The bytes `initializeDataFile` writes for the initial document: the
serialization of the empty document. -/
def emptyDocJson : String := "\x7b\x22events\x22:[]\x7d"

/-- `initializeDataFile()` (identical in all three scripts).  The file system
is one optional file content.  A missing, unreadable or unparseable file is
re-created holding the empty document, which is also returned; a parseable
file is returned unchanged.  `jsonParse` models `JSON.parse` restricted to
the document shape, yielding the persisted events list. -/
def initializeDataFile (jsonParse : String → Option (List α)) (file : Option String) :
    Option String × List α :=
  match file with
  | some contents =>
    match jsonParse contents with
    | some evs => (some contents, evs)
    | none => (some emptyDocJson, [])
  | none => (some emptyDocJson, [])

/-! ### The two main drivers -/

/-- The main driver of the NFL-only single-endpoint script: initialize the
store, drop the requested league from the in-memory list, fetch and parse
(the combined outcome — axios failure, a throwing parse, or the
not-an-array check — is the `fetchOutcome` argument), push the results, sort
and rewrite.  A fetch error reaches the outer handler before any merge or
write: the file stays as initialization left it and the process exits
non-zero (modelled by `false`). -/
def runNflScript (jsonParse : String → Option (List α)) (serialize : List α → String)
    (sc : String → String → Int) (league date time : α → String) (leagueId : String)
    (fetchOutcome : Except String (List α)) (file : Option String) :
    Option String × Bool :=
  let init := initializeDataFile jsonParse file
  let kept := init.2.filter (fun e => league e != leagueId)
  match fetchOutcome with
  | .error _ => (init.1, false)
  | .ok results =>
    let final := sortEvents sc league date time (kept ++ results)
    (some (serialize final), true)

/-- A `fetchEventsByDay` outcome in `script.js`: the response body on
success, or the `\x7b error: message \x7d` object the catch handler returns
on an axios failure. -/
inductive SdbFetchResult where
  | data (events : Option (List RawSdbEvent))
  | errorObj (msg : String)
deriving DecidableEq

/-- One day's contribution in `script.js`:
`result?.events?.map(event => formatEventData(event, leagueId)) || []`, with
a throwing `formatEventData` caught by the per-day handler and degraded to
`[]`.  An error object has no `events` property, so it also degrades to
`[]`. -/
def processDay (dateParse : String → Option Int) (intlFmt : Int → String × String)
    (leagueId : String) (r : SdbFetchResult) : List SdbEvent :=
  match r with
  | .errorObj _ => []
  | .data none => []
  | .data (some evs) =>
    match evs.mapM (fun e => formatEventData dateParse intlFmt e leagueId) with
    | .error _ => []
    | .ok out => out

/-- The main driver of `script.js` (day-windowed SportsDB variant), given the
per-day fetch outcomes: initialize, drop the requested league, concatenate
the day contributions (each degrading to `[]` on failure rather than
aborting), sort, rewrite the file and report success. -/
def runScriptJs (jsonParse : String → Option (List SdbEvent))
    (dateParse : String → Option Int) (intlFmt : Int → String × String)
    (sc : String → String → Int) (leagueId : String)
    (fetchResults : List SdbFetchResult) (file : Option String) :
    Option String × Bool :=
  let init := initializeDataFile jsonParse file
  let kept := init.2.filter (fun e => e.league != leagueId)
  let fresh := (fetchResults.map (processDay dateParse intlFmt leagueId)).flatten
  let final := sortEvents sc SdbEvent.league SdbEvent.date SdbEvent.time (kept ++ fresh)
  (some (serializeSdbDocument final), true)

/-! ### Order-theoretic facts about the sort comparator -/

/-- The laws a consistent `localeCompare` satisfies (ECMA-402 requires the
comparison to induce a consistent total ordering; collation of the strings
this pipeline feeds to it distinguishes unequal strings). -/
structure LocaleCmp (sc : String → String → Int) : Prop where
  zero_iff : ∀ s t, sc s t = 0 ↔ s = t
  neg_iff : ∀ s t, sc s t < 0 ↔ 0 < sc t s
  le_trans : ∀ s t u, sc s t ≤ 0 → sc t u ≤ 0 → sc s u ≤ 0

theorem LocaleCmp.le_total {sc : String → String → Int} (h : LocaleCmp sc)
    (s t : String) : sc s t ≤ 0 ∨ sc t s ≤ 0 := by
  by_cases hst : sc s t ≤ 0
  · exact Or.inl hst
  · exact Or.inr (le_of_lt ((h.neg_iff t s).mpr (lt_of_not_le hst)))

theorem LocaleCmp.eq_of_le_le {sc : String → String → Int} (h : LocaleCmp sc)
    {s t : String} (hst : sc s t ≤ 0) (hts : sc t s ≤ 0) : s = t := by
  rcases lt_or_eq_of_le hst with hlt | heq
  · exact absurd ((h.neg_iff s t).mp hlt) (not_lt.mpr hts)
  · exact (h.zero_iff s t).mp heq

theorem LocaleCmp.refl_le {sc : String → String → Int} (h : LocaleCmp sc)
    (s : String) : sc s s ≤ 0 :=
  le_of_eq ((h.zero_iff s s).mpr rfl)

/-- The comparator body on explicit key components (`eventCompare` is this
applied to the projections of its two arguments). -/
def cmpKey (sc : String → String → Int) (l1 d1 t1 l2 d2 t2 : String) : Int :=
  if l1 ≠ l2 then sc l1 l2
  else if d1 ≠ d2 then sc d1 d2
  else sc t1 t2

theorem eventCompare_eq_cmpKey (sc : String → String → Int)
    (league date time : α → String) (a b : α) :
    eventCompare sc league date time a b =
      cmpKey sc (league a) (date a) (time a) (league b) (date b) (time b) := rfl

theorem cmpKey_le_total {sc : String → String → Int} (h : LocaleCmp sc)
    (l1 d1 t1 l2 d2 t2 : String) :
    cmpKey sc l1 d1 t1 l2 d2 t2 ≤ 0 ∨ cmpKey sc l2 d2 t2 l1 d1 t1 ≤ 0 := by
  unfold cmpKey
  by_cases e : l1 = l2
  · subst e
    rw [if_neg (not_not_intro rfl), if_neg (not_not_intro rfl)]
    by_cases d : d1 = d2
    · subst d
      rw [if_neg (not_not_intro rfl), if_neg (not_not_intro rfl)]
      exact h.le_total t1 t2
    · rw [if_pos d, if_pos (Ne.symm d)]
      exact h.le_total d1 d2
  · rw [if_pos e, if_pos (Ne.symm e)]
    exact h.le_total l1 l2

theorem cmpKey_le_trans {sc : String → String → Int} (h : LocaleCmp sc)
    {l1 d1 t1 l2 d2 t2 l3 d3 t3 : String}
    (h12 : cmpKey sc l1 d1 t1 l2 d2 t2 ≤ 0) (h23 : cmpKey sc l2 d2 t2 l3 d3 t3 ≤ 0) :
    cmpKey sc l1 d1 t1 l3 d3 t3 ≤ 0 := by
  unfold cmpKey at h12 h23 ⊢
  by_cases e12 : l1 = l2
  · subst e12
    rw [if_neg (not_not_intro rfl)] at h12
    by_cases e23 : l1 = l3
    · subst e23
      rw [if_neg (not_not_intro rfl)] at h23 ⊢
      by_cases f12 : d1 = d2
      · subst f12
        rw [if_neg (not_not_intro rfl)] at h12
        by_cases f23 : d1 = d3
        · subst f23
          rw [if_neg (not_not_intro rfl)] at h23 ⊢
          exact h.le_trans _ _ _ h12 h23
        · rw [if_pos f23] at h23 ⊢
          exact h23
      · rw [if_pos f12] at h12
        by_cases f23 : d2 = d3
        · subst f23
          rw [if_pos f12]
          exact h12
        · rw [if_pos f23] at h23
          by_cases f13 : d1 = d3
          · subst f13
            exact absurd (h.eq_of_le_le h12 h23) f12
          · rw [if_pos f13]
            exact h.le_trans _ _ _ h12 h23
    · rw [if_pos e23] at h23 ⊢
      exact h23
  · rw [if_pos e12] at h12
    by_cases e23 : l2 = l3
    · subst e23
      rw [if_pos e12]
      exact h12
    · rw [if_pos e23] at h23
      by_cases e13 : l1 = l3
      · subst e13
        exact absurd (h.eq_of_le_le h12 h23) e12
      · rw [if_pos e13]
        exact h.le_trans _ _ _ h12 h23

theorem eventLe_total {sc : String → String → Int} {league date time : α → String}
    (h : LocaleCmp sc) (a b : α) :
    eventLe sc league date time a b ∨ eventLe sc league date time b a := by
  unfold eventLe
  rw [eventCompare_eq_cmpKey, eventCompare_eq_cmpKey]
  exact cmpKey_le_total h _ _ _ _ _ _

theorem eventLe_trans {sc : String → String → Int} {league date time : α → String}
    (h : LocaleCmp sc) (a b c : α)
    (hab : eventLe sc league date time a b) (hbc : eventLe sc league date time b c) :
    eventLe sc league date time a c := by
  unfold eventLe at hab hbc ⊢
  rw [eventCompare_eq_cmpKey] at hab hbc ⊢
  exact cmpKey_le_trans h hab hbc

theorem eventLe_of_same_key {sc : String → String → Int} {league date time : α → String}
    (h : LocaleCmp sc) (a b : α) (hl : league a = league b) (hd : date a = date b)
    (ht : time a = time b) : eventLe sc league date time a b := by
  unfold eventLe
  rw [eventCompare_eq_cmpKey, hl, hd, ht]
  unfold cmpKey
  rw [if_neg (not_not_intro rfl), if_neg (not_not_intro rfl)]
  exact h.refl_le _

/-- `charListCmp` distinguishes exactly unequal lists. -/
theorem charListCmp_zero_iff : ∀ as bs : List Char, charListCmp as bs = 0 ↔ as = bs := by
  intro as
  induction as with
  | nil =>
    intro bs
    cases bs <;> simp [charListCmp]
  | cons a as ih =>
    intro bs
    cases bs with
    | nil => simp [charListCmp]
    | cons b bs =>
      simp only [charListCmp]
      by_cases h1 : a.toNat < b.toNat
      · simp only [h1, if_true]
        constructor
        · intro hc
          exact absurd hc (by decide)
        · intro hc
          have : a = b := (List.cons.injEq .. ▸ hc).1
          exact absurd (this ▸ h1) (lt_irrefl _)
      · by_cases h2 : b.toNat < a.toNat
        · simp only [h1, h2, if_false, if_true]
          constructor
          · intro hc
            exact absurd hc (by decide)
          · intro hc
            have : a = b := (List.cons.injEq .. ▸ hc).1
            exact absurd (this ▸ h2) (lt_irrefl _)
        · have hab : a = b :=
            Char.eq_of_val_eq (UInt32.eq_of_toBitVec_eq (BitVec.eq_of_toNat_eq
              (Nat.le_antisymm (Nat.not_lt.mp h2) (Nat.not_lt.mp h1))))
          rw [hab, if_neg (Nat.lt_irrefl _), if_neg (Nat.lt_irrefl _), ih bs]
          simp

/-- `charListCmp` is sign-antisymmetric. -/
theorem charListCmp_neg_iff : ∀ as bs : List Char,
    charListCmp as bs < 0 ↔ 0 < charListCmp bs as := by
  intro as
  induction as with
  | nil =>
    intro bs
    cases bs <;> simp [charListCmp]
  | cons a as ih =>
    intro bs
    cases bs with
    | nil => simp [charListCmp]
    | cons b bs =>
      simp only [charListCmp]
      by_cases h1 : a.toNat < b.toNat
      · have h2 : ¬ b.toNat < a.toNat := Nat.lt_asymm h1
        simp [h1, h2]
      · by_cases h2 : b.toNat < a.toNat
        · simp [h1, h2]
        · simp only [h1, h2, if_false]
          exact ih bs

/-- `charListCmp` is transitive on the nonpositive side. -/
theorem charListCmp_le_trans : ∀ as bs cs : List Char,
    charListCmp as bs ≤ 0 → charListCmp bs cs ≤ 0 → charListCmp as cs ≤ 0 := by
  intro as
  induction as with
  | nil =>
    intro bs cs _ _
    cases cs <;> simp [charListCmp]
  | cons a as ih =>
    intro bs cs hab hbc
    cases bs with
    | nil => simp [charListCmp] at hab
    | cons b bs =>
      cases cs with
      | nil => simp [charListCmp] at hbc
      | cons c cs =>
        simp only [charListCmp] at hab hbc ⊢
        by_cases h1 : a.toNat < b.toNat <;> by_cases h2 : b.toNat < c.toNat
        · have : a.toNat < c.toNat := Nat.lt_trans h1 h2
          simp [this]
        · simp only [h2, if_false] at hbc
          by_cases h3 : c.toNat < b.toNat
          · simp [h3] at hbc
          · have hbc' : b.toNat = c.toNat := by omega
            have : a.toNat < c.toNat := hbc' ▸ h1
            simp [this]
        · simp only [h1, if_false] at hab
          by_cases h3 : b.toNat < a.toNat
          · simp [h3] at hab
          · have hab' : a.toNat = b.toNat := by omega
            have : a.toNat < c.toNat := hab' ▸ h2
            simp [this]
        · simp only [h1, if_false] at hab
          simp only [h2, if_false] at hbc
          by_cases h3 : b.toNat < a.toNat
          · simp [h3] at hab
          · by_cases h4 : c.toNat < b.toNat
            · simp [h4] at hbc
            · have hab' : a.toNat = b.toNat := by omega
              have hbc' : b.toNat = c.toNat := by omega
              have h5 : ¬ a.toNat < c.toNat := by omega
              have h6 : ¬ c.toNat < a.toNat := by omega
              simp only [h3, h4, if_false] at hab hbc
              simp only [h5, h6, if_false]
              exact ih bs cs hab hbc

/-! ### Sorting: permutation, sortedness, stability -/

theorem sortEvents_perm (sc : String → String → Int) (league date time : α → String)
    (events : List α) :
    List.Perm (sortEvents sc league date time events) events :=
  List.perm_insertionSort _ events

theorem sortEvents_sorted {sc : String → String → Int} {league date time : α → String}
    (h : LocaleCmp sc) (events : List α) :
    (sortEvents sc league date time events).Pairwise (eventLe sc league date time) := by
  haveI : IsTotal α (eventLe sc league date time) := ⟨fun a b => eventLe_total h a b⟩
  haveI : IsTrans α (eventLe sc league date time) := ⟨fun a b c => eventLe_trans h a b c⟩
  exact List.sorted_insertionSort _ events

theorem sortEvents_filter_key {sc : String → String → Int} {league date time : α → String}
    (h : LocaleCmp sc) (events : List α) (l d t : String) :
    (sortEvents sc league date time events).filter
        (fun e => league e == l && date e == d && time e == t) =
      events.filter (fun e => league e == l && date e == d && time e == t) := by
  set p : α → Bool := fun e => league e == l && date e == d && time e == t with hp
  have key : ∀ x, p x = true → league x = l ∧ date x = d ∧ time x = t := by
    intro x hx
    rw [hp] at hx
    simp only [Bool.and_eq_true, beq_iff_eq] at hx
    exact ⟨hx.1.1, hx.1.2, hx.2⟩
  have hA : (events.filter p).Pairwise (eventLe sc league date time) :=
    List.pairwise_of_forall_mem_list (fun x hx y hy => by
      obtain ⟨hx1, hx2, hx3⟩ := key x (List.of_mem_filter hx)
      obtain ⟨hy1, hy2, hy3⟩ := key y (List.of_mem_filter hy)
      exact eventLe_of_same_key h x y (hx1.trans hy1.symm) (hx2.trans hy2.symm)
        (hx3.trans hy3.symm))
  have hsub : List.Sublist (events.filter p) (sortEvents sc league date time events) :=
    List.sublist_insertionSort hA (List.filter_sublist events)
  have hsub2 : List.Sublist ((events.filter p).filter p)
      ((sortEvents sc league date time events).filter p) :=
    List.Sublist.filter p hsub
  have hself : (events.filter p).filter p = events.filter p :=
    List.filter_eq_self.mpr (fun a ha => List.of_mem_filter ha)
  rw [hself] at hsub2
  have hperm : List.Perm ((sortEvents sc league date time events).filter p)
      (events.filter p) :=
    (sortEvents_perm sc league date time events).filter p
  exact (hsub2.eq_of_length hperm.length_eq.symm).symm

/-! ### The two merge policies: frame and idempotence lemmas -/

theorem mergeReplace_other_leagues (league : α → String) (leagueId : String)
    (events fresh : List α) (hfresh : ∀ f ∈ fresh, league f = leagueId) :
    (mergeReplace league leagueId events fresh).filter (fun e => league e != leagueId) =
      events.filter (fun e => league e != leagueId) := by
  unfold mergeReplace
  rw [List.filter_append]
  have h1 : (events.filter (fun e => league e != leagueId)).filter
      (fun e => league e != leagueId) = events.filter (fun e => league e != leagueId) :=
    List.filter_eq_self.mpr (fun a ha => (List.mem_filter.mp ha).2)
  have h2 : fresh.filter (fun e => league e != leagueId) = [] := by
    rw [List.filter_eq_nil_iff]
    intro f hf
    simp [hfresh f hf]
  rw [h1, h2, List.append_nil]

theorem mergeReplace_idem (league : α → String) (leagueId : String)
    (events fresh : List α) (hfresh : ∀ f ∈ fresh, league f = leagueId) :
    mergeReplace league leagueId (mergeReplace league leagueId events fresh) fresh =
      mergeReplace league leagueId events fresh := by
  conv_lhs => rw [mergeReplace]
  rw [mergeReplace_other_leagues league leagueId events fresh hfresh]
  rfl

theorem mergeReplace_key_nodup (league eid : α → String) (leagueId : String)
    (events fresh : List α)
    (hdoc : (events.map (fun e => (league e, eid e))).Nodup)
    (hfresh : ∀ f ∈ fresh, league f = leagueId)
    (hids : (fresh.map eid).Nodup) :
    ((mergeReplace league leagueId events fresh).map (fun e => (league e, eid e))).Nodup := by
  unfold mergeReplace
  rw [List.map_append]
  have n1 : ((events.filter (fun e => league e != leagueId)).map
      (fun e => (league e, eid e))).Nodup :=
    ((List.filter_sublist events).map _).nodup hdoc
  have n2 : (fresh.map (fun e => (league e, eid e))).Nodup := by
    have h0 : fresh.Pairwise (fun a b => eid a ≠ eid b) := List.pairwise_map.mp hids
    exact List.pairwise_map.mpr (h0.imp (fun hne hkey => hne (congrArg Prod.snd hkey)))
  refine n1.append n2 ?_
  rw [List.disjoint_left]
  intro x hx1 hx2
  obtain ⟨e, he, hex⟩ := List.mem_map.mp hx1
  obtain ⟨f, hf, hfx⟩ := List.mem_map.mp hx2
  have hne : league e ≠ leagueId := by
    have := List.of_mem_filter he
    simpa using this
  have : league e = league f := congrArg Prod.fst (hex.trans hfx.symm)
  exact hne (this.trans (hfresh f hf))

/-! ### Parser facts: which entries are dropped, which produce events, and
which make `formatEvent` throw -/

/-- An entry the `formatEvent` guard drops: falsy, without `competitions`, or
with an empty `competitions` array. -/
def droppedEntry : Option RawEspnEvent → Bool
  | none => true
  | some ev =>
    match ev.competitions with
    | none => true
    | some [] => true
    | some (_ :: _) => false

/-- An entry carrying everything `formatEvent` dereferences: a first
competition with at least two competitors each bearing a `team` sub-object, a
`status.type` sub-object, and a date that is absent, empty or accepted by the
host date parser. -/
def wellFormedEntry (dateParse : String → Option Int) : Option RawEspnEvent → Bool
  | none => false
  | some ev =>
    (match ev.competitions with
     | some (c :: _) =>
       (match c.competitors with
        | some (c1 :: c2 :: _) => c1.team.isSome && c2.team.isSome
        | _ => false)
     | _ => false)
    && (match ev.status with
        | some st => st.type.isSome
        | none => false)
    && (match ev.date with
        | none => true
        | some s =>
          if s = "" then true
          else (dateParse (if hasOffsetJs s then s else s ++ "Z")).isSome)

theorem not_wellFormed_of_dropped (dateParse : String → Option Int)
    (e : Option RawEspnEvent) (h : droppedEntry e = true) :
    wellFormedEntry dateParse e = false := by
  cases e with
  | none => rfl
  | some ev =>
    obtain ⟨evid, evdate, evcomp, evstat⟩ := ev
    cases evcomp with
    | none => rfl
    | some l =>
      cases l with
      | nil => rfl
      | cons c cs => exact Bool.noConfusion h

theorem formatEventDateTime_ok_of_wfDate (dateParse : String → Option Int)
    (intlFmt : Int → String × String) (v : Option String)
    (h : (match v with
          | none => true
          | some s =>
            if s = "" then true
            else (dateParse (if hasOffsetJs s then s else s ++ "Z")).isSome) = true) :
    ∃ r, formatEventDateTime dateParse intlFmt v = .ok r := by
  match v with
  | none => exact ⟨("", ""), rfl⟩
  | some s =>
    by_cases hs : s = ""
    · exact ⟨("", ""), by simp [formatEventDateTime, jsFalsyStr, hs]⟩
    · simp only [hs, if_false] at h
      obtain ⟨t, ht⟩ := Option.isSome_iff_exists.mp h
      refine ⟨intlFmt t, ?_⟩
      simp [formatEventDateTime, jsFalsyStr, hs, ht]

theorem nflFormatEvent_dropped (dateParse : String → Option Int)
    (intlFmt : Int → String × String) (e : Option RawEspnEvent)
    (h : droppedEntry e = true) : nflFormatEvent dateParse intlFmt e = .ok none := by
  cases e with
  | none => rfl
  | some ev =>
    obtain ⟨evid, evdate, evcomp, evstat⟩ := ev
    cases evcomp with
    | none => rfl
    | some l =>
      cases l with
      | nil => rfl
      | cons c cs => exact Bool.noConfusion h

theorem nflFormatEvent_wellFormed (dateParse : String → Option Int)
    (intlFmt : Int → String × String) (e : Option RawEspnEvent)
    (h : wellFormedEntry dateParse e = true) :
    ∃ out, nflFormatEvent dateParse intlFmt e = .ok (some out) := by
  cases e with
  | none => exact Bool.noConfusion h
  | some ev =>
    obtain ⟨evid, evdate, evcomp, evstat⟩ := ev
    simp only [wellFormedEntry, Bool.and_eq_true] at h
    obtain ⟨⟨hcomp, hstat⟩, hdate⟩ := h
    obtain ⟨r, hr⟩ := formatEventDateTime_ok_of_wfDate dateParse intlFmt evdate hdate
    cases evcomp with
    | none => exact Bool.noConfusion hcomp
    | some l =>
      cases l with
      | nil => exact Bool.noConfusion hcomp
      | cons competition tail =>
        obtain ⟨cmps⟩ := competition
        cases cmps with
        | none => exact Bool.noConfusion hcomp
        | some cl =>
          cases cl with
          | nil => exact Bool.noConfusion hcomp
          | cons c1 cl2 =>
            cases cl2 with
            | nil => exact Bool.noConfusion hcomp
            | cons c2 crest =>
              replace hcomp : (c1.team.isSome && c2.team.isSome) = true := hcomp
              rw [Bool.and_eq_true] at hcomp
              obtain ⟨ct1, cs1⟩ := c1
              obtain ⟨ct2, cs2⟩ := c2
              cases ct1 with
              | none => exact Bool.noConfusion hcomp.1
              | some t1 =>
                cases ct2 with
                | none => exact Bool.noConfusion hcomp.2
                | some t2 =>
                  cases evstat with
                  | none => exact Bool.noConfusion hstat
                  | some st =>
                    obtain ⟨sttype⟩ := st
                    cases sttype with
                    | none => exact Bool.noConfusion hstat
                    | some ty =>
                      simp only [nflFormatEvent, nflFormatEventCore, hr,
                        List.getElem?_cons_zero, List.getElem?_cons_succ]
                      exact ⟨_, rfl⟩

theorem nbaFormatEvent_dropped (dateParse : String → Option Int)
    (intlFmt : Int → String × String) (e : Option RawEspnEvent)
    (h : droppedEntry e = true) : nbaFormatEvent dateParse intlFmt e = .ok none := by
  cases e with
  | none => rfl
  | some ev =>
    obtain ⟨evid, evdate, evcomp, evstat⟩ := ev
    cases evcomp with
    | none => rfl
    | some l =>
      cases l with
      | nil => rfl
      | cons c cs => exact Bool.noConfusion h

theorem nbaFormatEvent_wellFormed (dateParse : String → Option Int)
    (intlFmt : Int → String × String) (e : Option RawEspnEvent)
    (h : wellFormedEntry dateParse e = true) :
    ∃ out, nbaFormatEvent dateParse intlFmt e = .ok (some out) := by
  cases e with
  | none => exact Bool.noConfusion h
  | some ev =>
    obtain ⟨evid, evdate, evcomp, evstat⟩ := ev
    simp only [wellFormedEntry, Bool.and_eq_true] at h
    obtain ⟨⟨hcomp, hstat⟩, hdate⟩ := h
    obtain ⟨r, hr⟩ := formatEventDateTime_ok_of_wfDate dateParse intlFmt evdate hdate
    cases evcomp with
    | none => exact Bool.noConfusion hcomp
    | some l =>
      cases l with
      | nil => exact Bool.noConfusion hcomp
      | cons competition tail =>
        obtain ⟨cmps⟩ := competition
        cases cmps with
        | none => exact Bool.noConfusion hcomp
        | some cl =>
          cases cl with
          | nil => exact Bool.noConfusion hcomp
          | cons c1 cl2 =>
            cases cl2 with
            | nil => exact Bool.noConfusion hcomp
            | cons c2 crest =>
              replace hcomp : (c1.team.isSome && c2.team.isSome) = true := hcomp
              rw [Bool.and_eq_true] at hcomp
              obtain ⟨ct1, cs1⟩ := c1
              obtain ⟨ct2, cs2⟩ := c2
              cases ct1 with
              | none => exact Bool.noConfusion hcomp.1
              | some t1 =>
                cases ct2 with
                | none => exact Bool.noConfusion hcomp.2
                | some t2 =>
                  cases evstat with
                  | none => exact Bool.noConfusion hstat
                  | some st =>
                    obtain ⟨sttype⟩ := st
                    cases sttype with
                    | none => exact Bool.noConfusion hstat
                    | some ty =>
                      simp only [nbaFormatEvent, nbaFormatEventCore, hr,
                        List.getElem?_cons_zero, List.getElem?_cons_succ]
                      exact ⟨_, rfl⟩

theorem mlbFormatEvent_dropped (dateParse : String → Option Int)
    (intlFmt : Int → String × String) (e : Option RawEspnEvent)
    (h : droppedEntry e = true) : mlbFormatEvent dateParse intlFmt e = .ok none := by
  cases e with
  | none => rfl
  | some ev =>
    obtain ⟨evid, evdate, evcomp, evstat⟩ := ev
    cases evcomp with
    | none => rfl
    | some l =>
      cases l with
      | nil => rfl
      | cons c cs => exact Bool.noConfusion h

theorem mlbFormatEvent_wellFormed (dateParse : String → Option Int)
    (intlFmt : Int → String × String) (e : Option RawEspnEvent)
    (h : wellFormedEntry dateParse e = true) :
    ∃ out, mlbFormatEvent dateParse intlFmt e = .ok (some out) := by
  cases e with
  | none => exact Bool.noConfusion h
  | some ev =>
    obtain ⟨evid, evdate, evcomp, evstat⟩ := ev
    simp only [wellFormedEntry, Bool.and_eq_true] at h
    obtain ⟨⟨hcomp, hstat⟩, hdate⟩ := h
    obtain ⟨r, hr⟩ := formatEventDateTime_ok_of_wfDate dateParse intlFmt evdate hdate
    cases evcomp with
    | none => exact Bool.noConfusion hcomp
    | some l =>
      cases l with
      | nil => exact Bool.noConfusion hcomp
      | cons competition tail =>
        obtain ⟨cmps⟩ := competition
        cases cmps with
        | none => exact Bool.noConfusion hcomp
        | some cl =>
          cases cl with
          | nil => exact Bool.noConfusion hcomp
          | cons c1 cl2 =>
            cases cl2 with
            | nil => exact Bool.noConfusion hcomp
            | cons c2 crest =>
              replace hcomp : (c1.team.isSome && c2.team.isSome) = true := hcomp
              rw [Bool.and_eq_true] at hcomp
              obtain ⟨ct1, cs1⟩ := c1
              obtain ⟨ct2, cs2⟩ := c2
              cases ct1 with
              | none => exact Bool.noConfusion hcomp.1
              | some t1 =>
                cases ct2 with
                | none => exact Bool.noConfusion hcomp.2
                | some t2 =>
                  cases evstat with
                  | none => exact Bool.noConfusion hstat
                  | some st =>
                    obtain ⟨sttype⟩ := st
                    cases sttype with
                    | none => exact Bool.noConfusion hstat
                    | some ty =>
                      simp only [mlbFormatEvent, mlbFormatEventCore, hr,
                        List.getElem?_cons_zero, List.getElem?_cons_succ]
                      exact ⟨_, rfl⟩

/-- Mapping any of the `formatEvent` variants over a list of entries that are
each dropped or fully formed succeeds, and keeping the non-`null` results
yields exactly one event per well-formed entry. -/
theorem espnMapCount {β : Type} (dateParse : String → Option Int)
    (format : Option RawEspnEvent → Except String (Option β))
    (hdrop : ∀ e, droppedEntry e = true → format e = .ok none)
    (hwf : ∀ e, wellFormedEntry dateParse e = true → ∃ out, format e = .ok (some out)) :
    ∀ evs : List (Option RawEspnEvent),
      (∀ e ∈ evs, droppedEntry e = true ∨ wellFormedEntry dateParse e = true) →
      ∃ l, evs.mapM format = .ok l ∧
        (l.filterMap id).length = (evs.filter (wellFormedEntry dateParse)).length := by
  intro evs
  induction evs with
  | nil => intro _; exact ⟨[], rfl, rfl⟩
  | cons e es ih =>
    intro h
    obtain ⟨l, hl, hlen⟩ := ih (fun x hx => h x (List.mem_cons_of_mem e hx))
    rcases h e (List.mem_cons_self e es) with hd | hw
    · refine ⟨none :: l, ?_, ?_⟩
      · rw [List.mapM_cons, hdrop e hd, hl]
        rfl
      · simp [List.filter_cons, not_wellFormed_of_dropped dateParse e hd, hlen]
    · obtain ⟨out, hout⟩ := hwf e hw
      refine ⟨some out :: l, ?_, ?_⟩
      · rw [List.mapM_cons, hout, hl]
        rfl
      · simp [List.filter_cons, hw, hlen]

/-- The concrete comparator satisfies the `localeCompare` laws. -/
theorem lcAscii_laws : LocaleCmp lcAscii := by
  constructor
  · intro s t
    unfold lcAscii
    rw [charListCmp_zero_iff]
    constructor
    · intro hd
      cases s
      cases t
      exact congrArg String.mk hd
    · intro hd
      rw [hd]
  · intro s t
    exact charListCmp_neg_iff s.data t.data
  · intro s t u
    exact charListCmp_le_trans s.data t.data u.data

/-! ### Timestamp formatter facts -/

theorem hasOffsetJs_append_Z (s : String) : hasOffsetJs (s ++ "Z") = true := by
  unfold hasOffsetJs
  have hz : ("Z" : String).data = ['Z'] := rfl
  rw [String.data_append, hz]
  have h1 : (s.data ++ ['Z']).any (fun c => c = 'z' || c = 'Z') = true := by
    rw [List.any_append]
    have h2 : (['Z'].any (fun c => c = 'z' || c = 'Z')) = true := by decide
    rw [h2, Bool.or_true]
  rw [h1, Bool.true_or]

theorem jsFalsyStr_append_Z (s : String) : jsFalsyStr (some (s ++ "Z")) = false := by
  simp only [jsFalsyStr, decide_eq_false_iff_not]
  intro hc
  have hlen := congrArg String.length hc
  rw [String.length_append] at hlen
  have h1 : ("Z" : String).length = 1 := rfl
  have h2 : ("" : String).length = 0 := rfl
  rw [h1, h2] at hlen
  omega

/-! ### Inversion facts for the produced score fields -/

theorem formatEventData_scores (dateParse : String → Option Int)
    (intlFmt : Int → String × String) (event : RawSdbEvent) (leagueId : String)
    (ev : SdbEvent) (h : formatEventData dateParse intlFmt event leagueId = .ok ev) :
    ev.away.score = jsParseIntOr0 event.intAwayScore ∧
    ev.home.score = jsParseIntOr0 event.intHomeScore := by
  unfold formatEventData at h
  cases hdt : formatEventDateTime dateParse intlFmt event.strTimestamp with
  | error msg =>
    rw [hdt] at h
    exact Except.noConfusion h
  | ok dt =>
    rw [hdt] at h
    have h3 := Except.ok.inj h
    constructor
    · rw [← h3]
    · rw [← h3]

theorem nflFormatEvent_scores (dateParse : String → Option Int)
    (intlFmt : Int → String × String) (e : Option RawEspnEvent) (out : NflEvent)
    (h : nflFormatEvent dateParse intlFmt e = .ok (some out)) :
    ∃ v w : JsPrim, out.team_one.score = jsParseIntOr0 v ∧
      out.team_two.score = jsParseIntOr0 w := by
  unfold nflFormatEvent nflFormatEventCore at h
  iterate 12 (all_goals try (split at h))
  all_goals
    first
      | exact Except.noConfusion h
      | exact Option.noConfusion (Except.ok.inj h)
      | (obtain rfl := Option.some.inj (Except.ok.inj h)
         exact ⟨_, _, rfl, rfl⟩)

/-! ### Claim C4 -/

/-- C4 (corrected): an empty (or absent) timestamp input yields the pair of
empty date and time strings, but a non-empty input the host date parser
rejects makes the `Intl` formatter throw a `RangeError` — the function is
not total on all strings. -/
theorem C4_formatEventDateTime_empty_and_malformed (dateParse : String → Option Int)
    (intlFmt : Int → String × String) :
    formatEventDateTime dateParse intlFmt (some "") = .ok ("", "")
    ∧ formatEventDateTime dateParse intlFmt none = .ok ("", "")
    ∧ (∀ s : String, s ≠ "" →
        dateParse (if hasOffsetJs s then s else s ++ "Z") = none →
        formatEventDateTime dateParse intlFmt (some s) =
          .error "RangeError: Invalid time value") := by
  refine ⟨rfl, rfl, ?_⟩
  intro s hs hparse
  unfold formatEventDateTime
  have f1 : jsFalsyStr (some s) = false := by simp [jsFalsyStr, hs]
  rw [f1]
  simp only [Bool.false_eq_true, if_false, Option.getD_some, hparse]

/-- C4 counterexample: the malformed, non-empty timestamp `"garbage"` throws
instead of yielding empty strings. -/
theorem C4_counterexample :
    formatEventDateTime parseIsoTimestamp formatInstantLA (some "garbage") =
      .error "RangeError: Invalid time value"
    ∧ formatEventDateTime parseIsoTimestamp formatInstantLA (some "garbage") ≠
      .ok ("", "") :=
  ⟨rfl, fun hc => Except.noConfusion hc⟩

theorem C4_witness :
    formatEventDateTime parseIsoTimestamp formatInstantLA (some "") = .ok ("", "")
    ∧ formatEventDateTime parseIsoTimestamp formatInstantLA none = .ok ("", "")
    ∧ formatEventDateTime parseIsoTimestamp formatInstantLA (some "garbage") =
      .error "RangeError: Invalid time value" :=
  ⟨(C4_formatEventDateTime_empty_and_malformed parseIsoTimestamp formatInstantLA).1,
   (C4_formatEventDateTime_empty_and_malformed parseIsoTimestamp formatInstantLA).2.1,
   (C4_formatEventDateTime_empty_and_malformed parseIsoTimestamp formatInstantLA).2.2
     "garbage" (by decide) (by decide)⟩

/-! ### Claim C6 -/

/-- C6: a timestamp without an explicit UTC or offset marker is treated as
UTC — formatting it and formatting its `Z`-suffixed counterpart produce the
same outcome, whatever the host date parser and formatter do. -/
theorem C6_offset_free_is_utc (dateParse : String → Option Int)
    (intlFmt : Int → String × String) (s : String) (h1 : s ≠ "")
    (h2 : hasOffsetJs s = false) :
    formatEventDateTime dateParse intlFmt (some s) =
      formatEventDateTime dateParse intlFmt (some (s ++ "Z")) := by
  unfold formatEventDateTime
  have f1 : jsFalsyStr (some s) = false := by simp [jsFalsyStr, h1]
  rw [f1, jsFalsyStr_append_Z]
  simp only [Bool.false_eq_true, if_false, Option.getD_some, h2, hasOffsetJs_append_Z,
    if_true]

theorem C6_witness :
    ("2025-10-05T13:30:00" ≠ "" ∧ hasOffsetJs "2025-10-05T13:30:00" = false)
    ∧ formatEventDateTime parseIsoTimestamp formatInstantLA (some "2025-10-05T13:30:00") =
      formatEventDateTime parseIsoTimestamp formatInstantLA
        (some ("2025-10-05T13:30:00" ++ "Z")) :=
  ⟨⟨by decide, by decide⟩,
   C6_offset_free_is_utc parseIsoTimestamp formatInstantLA "2025-10-05T13:30:00"
     (by decide) (by decide)⟩

/-! ### Claim C5 -/

/-- C5: score parsing maps `"3"`, `3`, `""`, `null` and `"abc"` to `3`, `3`,
`0`, `0` and `0`, and every score field of a produced event record is the
integer `jsParseIntOr0` of the corresponding raw input — an `Int` by type,
never `NaN` or `null`. -/
theorem C5_score_parsing :
    jsParseIntOr0 (.str "3") = 3 ∧ jsParseIntOr0 (.num 3) = 3
    ∧ jsParseIntOr0 (.str "") = 0 ∧ jsParseIntOr0 .null = 0
    ∧ jsParseIntOr0 (.str "abc") = 0
    ∧ (∀ dateParse intlFmt event leagueId ev,
        formatEventData dateParse intlFmt event leagueId = .ok ev →
        ev.away.score = jsParseIntOr0 event.intAwayScore ∧
        ev.home.score = jsParseIntOr0 event.intHomeScore)
    ∧ (∀ dateParse intlFmt e out, nflFormatEvent dateParse intlFmt e = .ok (some out) →
        ∃ v w : JsPrim, out.team_one.score = jsParseIntOr0 v ∧
          out.team_two.score = jsParseIntOr0 w) := by
  refine ⟨by decide, by decide, by decide, by decide, by decide, ?_, ?_⟩
  · intro dateParse intlFmt event leagueId ev h
    exact formatEventData_scores dateParse intlFmt event leagueId ev h
  · intro dateParse intlFmt e out h
    exact nflFormatEvent_scores dateParse intlFmt e out h

/-! ### Claim C10 -/

/-- C10: score parsing takes the decimal prefix — `"3abc"` parses to `3`,
`"-2"` to `-2` — and every input whose `parseInt` result is `NaN`, `0` or
`-0` (including `"0"` and `0`) yields exactly `0`; in general a
successfully parsed prefix value is returned as is. -/
theorem C10_parseInt_decimal_details :
    jsParseIntOr0 (.str "3abc") = 3 ∧ jsParseIntOr0 (.str "-2") = -2
    ∧ jsParseIntOr0 (.str "0") = 0 ∧ jsParseIntOr0 (.num 0) = 0
    ∧ (∀ s n, parseIntDecimal s = some n → jsParseIntOr0 (.str s) = n)
    ∧ (∀ v, (parseIntDecimal (jsToString v) = none ∨
        parseIntDecimal (jsToString v) = some 0) → jsParseIntOr0 v = 0) := by
  refine ⟨by decide, by decide, by decide, by decide, ?_, ?_⟩
  · intro s n h
    simp [jsParseIntOr0, jsToString, h]
  · intro v h
    rcases h with h | h <;> simp [jsParseIntOr0, h]

theorem C10_witness :
    parseIntDecimal "7x" = some 7 ∧ jsParseIntOr0 (.str "7x") = 7
    ∧ parseIntDecimal (jsToString (.str "x")) = none ∧ jsParseIntOr0 (.str "x") = 0 :=
  ⟨by decide, C10_parseInt_decimal_details.2.2.2.2.1 "7x" 7 (by decide),
   by decide, C10_parseInt_decimal_details.2.2.2.2.2 (.str "x") (Or.inl (by decide))⟩

/-! ### Concrete sample data for witnesses and counterexamples -/

set_option maxRecDepth 40000

/-- A persisted `script.js` participant. -/
def sampleSdbTeam : SdbTeam := { id := "1", name := "Alpha", badge := "badge-a", score := 3 }

/-- A persisted `script.js` NFL event, as a previous run would have written
it. -/
def sampleSdbEvent : SdbEvent :=
  { id := "100", date := "Oct 05 2025", status := "Finished", time := "06:30 PM",
    league := "NFL", leagueBadge := "lb", away := sampleSdbTeam, home := sampleSdbTeam }

/-- The document file holding exactly `sampleSdbEvent`. -/
def sampleDocJson : String := serializeSdbDocument [sampleSdbEvent]

/-- A concrete instance of the `JSON.parse` oracle, agreeing with
`JSON.parse` on the two document strings the concrete runs below touch. -/
def sampleJsonParse : String → Option (List SdbEvent) := fun s =>
  if s = sampleDocJson then some [sampleSdbEvent]
  else if s = emptyDocJson then some []
  else none

/-- A raw SportsDB event with a string score and a `null` score. -/
def sampleRawSdbEvent : RawSdbEvent :=
  { idEvent := "100", strTimestamp := some "2025-10-05T13:30:00Z", strStatus := "FT",
    strLeagueBadge := "lb", idAwayTeam := "1", strAwayTeam := "A", strAwayTeamBadge := "ab",
    intAwayScore := .str "3", idHomeTeam := "2", strHomeTeam := "B", strHomeTeamBadge := "hb",
    intHomeScore := .null }

/-- What `formatEventData` produces from `sampleRawSdbEvent` for `"NFL"`. -/
def sampleFormattedSdb : SdbEvent :=
  { id := "100", date := "Oct 05 2025", status := "Finished", time := "06:30 AM",
    league := "NFL", leagueBadge := "lb",
    away := { id := "1", name := "A", badge := "ab", score := 3 },
    home := { id := "2", name := "B", badge := "hb", score := 0 } }

/-- Stored events for the merge counterexamples: an NFL event and an NBA
event that share the upstream id `"1"`, and NBA fresh data. -/
def nflStored : StoredEvent :=
  { league := "NFL", id := "1", date := "", time := "", payload := "nfl persisted" }

/-- See `nflStored`. -/
def nbaStored : StoredEvent :=
  { league := "NBA", id := "1", date := "", time := "", payload := "nba persisted" }

/-- A fresh NBA event whose id collides with `nflStored` across leagues. -/
def nbaFreshEvent : StoredEvent :=
  { league := "NBA", id := "1", date := "", time := "", payload := "nba fresh" }

/-- A fresh NBA event with a distinct id. -/
def nbaFreshOther : StoredEvent :=
  { league := "NBA", id := "2", date := "", time := "", payload := "nba other" }

/-- The three events of the sort-stability example. -/
def evSortA : StoredEvent :=
  { league := "NBA", id := "a", date := "2025-01-02", time := "10:00", payload := "" }

/-- See `evSortA`. -/
def evSortB : StoredEvent :=
  { league := "NBA", id := "b", date := "2025-01-01", time := "09:00", payload := "" }

/-- See `evSortA`. -/
def evSortC : StoredEvent :=
  { league := "MLB", id := "c", date := "2025-01-01", time := "09:00", payload := "" }

/-- A fully-formed raw ESPN team. -/
def wfEspnTeam : RawTeamInfo :=
  { id := some "t1", name := some "Lions", logo := some "l", location := some "Detroit",
    abbreviation := some "DET" }

/-- A fully-formed competitor with score `"3"`. -/
def wfCompetitorA : RawCompetitor := { team := some wfEspnTeam, score := JsPrim.str "3" }

/-- A fully-formed competitor with score `"0"`. -/
def wfCompetitorB : RawCompetitor := { team := some wfEspnTeam, score := JsPrim.str "0" }

/-- A competition holding the two competitors above. -/
def wfCompetition : RawCompetition := { competitors := some [wfCompetitorA, wfCompetitorB] }

/-- A final status. -/
def wfStatusType : RawStatusType := { name := some "STATUS_FINAL", detail := some "Final/OT" }

/-- A fully-formed raw ESPN event. -/
def wfEspnEvent : RawEspnEvent :=
  { id := some "401", date := some "2025-10-05T13:30:00Z",
    competitions := some [wfCompetition], status := some { type := some wfStatusType } }

/-- The normalized NFL event produced from `wfEspnEvent`. -/
def wfNflOut : NflEvent :=
  { id := some "401", date := "Oct 05 2025", time := "06:30 AM", status := "Final",
    league := "NFL",
    leagueBadge := "https://a.espncdn.com/i/teamlogos/leagues/500-dark/nfl.png",
    team_one := { id := some "t1", name := some "Lions", badge := some "l", score := 3 },
    team_two := { id := some "t1", name := some "Lions", badge := some "l", score := 0 } }

/-- A malformed entry the guard drops: no `competitions`. -/
def droppedEspnEvent : RawEspnEvent :=
  { id := some "402", date := none, competitions := none, status := none }

/-- A malformed entry the guard does not drop: a competition without
`competitors`, on which `formatEvent` throws. -/
def throwingEspnEvent : RawEspnEvent :=
  { id := some "403", date := none, competitions := some [{ competitors := none }],
    status := none }

/-- A small response body: one fully-formed entry, one dropped entry, one
`null` entry. -/
def espnSampleEntries : List (Option RawEspnEvent) :=
  [some wfEspnEvent, some droppedEspnEvent, none]

theorem C5_witness :
    formatEventData parseIsoTimestamp formatInstantLA sampleRawSdbEvent "NFL" =
      .ok sampleFormattedSdb
    ∧ (sampleFormattedSdb.away.score = jsParseIntOr0 sampleRawSdbEvent.intAwayScore ∧
       sampleFormattedSdb.home.score = jsParseIntOr0 sampleRawSdbEvent.intHomeScore)
    ∧ nflFormatEvent parseIsoTimestamp formatInstantLA (some wfEspnEvent) =
      .ok (some wfNflOut)
    ∧ (∃ v w : JsPrim, wfNflOut.team_one.score = jsParseIntOr0 v ∧
        wfNflOut.team_two.score = jsParseIntOr0 w) :=
  ⟨rfl,
   C5_score_parsing.2.2.2.2.2.1 parseIsoTimestamp formatInstantLA sampleRawSdbEvent "NFL"
     sampleFormattedSdb rfl,
   rfl,
   C5_score_parsing.2.2.2.2.2.2 parseIsoTimestamp formatInstantLA (some wfEspnEvent)
     wfNflOut rfl⟩

/-! ### Claim C3 -/

/-- C3 (amended): for a response bearing an events array, each per-league
parse returns one normalized event per fully-formed entry and silently drops
entries that are falsy, lack `competitions` or have an empty `competitions`
array; but it does not tolerate arbitrary entry contents — an entry past the
guard that lacks a competitor, a team or `status.type`, or whose date the
host rejects, makes the parse throw (see the counterexample). -/
theorem C3_parse_drops_and_counts (dateParse : String → Option Int)
    (intlFmt : Int → String × String) (evs : List (Option RawEspnEvent))
    (h : ∀ e ∈ evs, droppedEntry e = true ∨ wellFormedEntry dateParse e = true) :
    (∃ l, nflParse dateParse intlFmt (some { events := some evs }) = .ok l ∧
      l.length = (evs.filter (wellFormedEntry dateParse)).length)
    ∧ (∃ l, nbaParse dateParse intlFmt (some { events := some evs }) = .ok l ∧
      l.length = (evs.filter (wellFormedEntry dateParse)).length)
    ∧ (∃ l, mlbParse dateParse intlFmt (some { events := some evs }) = .ok l ∧
      l.length = (evs.filter (wellFormedEntry dateParse)).length) := by
  refine ⟨?_, ?_, ?_⟩
  · obtain ⟨l, hl, hlen⟩ := espnMapCount dateParse (nflFormatEvent dateParse intlFmt)
      (nflFormatEvent_dropped dateParse intlFmt) (nflFormatEvent_wellFormed dateParse intlFmt)
      evs h
    refine ⟨l.filterMap id, ?_, hlen⟩
    have he : nflParse dateParse intlFmt (some { events := some evs }) =
        (evs.mapM (nflFormatEvent dateParse intlFmt)).map (fun l => l.filterMap id) := rfl
    rw [he, hl]
    rfl
  · obtain ⟨l, hl, hlen⟩ := espnMapCount dateParse (nbaFormatEvent dateParse intlFmt)
      (nbaFormatEvent_dropped dateParse intlFmt) (nbaFormatEvent_wellFormed dateParse intlFmt)
      evs h
    refine ⟨l.filterMap id, ?_, hlen⟩
    have he : nbaParse dateParse intlFmt (some { events := some evs }) =
        (evs.mapM (nbaFormatEvent dateParse intlFmt)).map (fun l => l.filterMap id) := rfl
    rw [he, hl]
    rfl
  · obtain ⟨l, hl, hlen⟩ := espnMapCount dateParse (mlbFormatEvent dateParse intlFmt)
      (mlbFormatEvent_dropped dateParse intlFmt) (mlbFormatEvent_wellFormed dateParse intlFmt)
      evs h
    refine ⟨l.filterMap id, ?_, hlen⟩
    have he : mlbParse dateParse intlFmt (some { events := some evs }) =
        (evs.mapM (mlbFormatEvent dateParse intlFmt)).map (fun l => l.filterMap id) := rfl
    rw [he, hl]
    rfl

/-- C3 counterexample: an entry whose `competitions` is a one-element array
holding a competition without `competitors` passes the guard and makes
`parse` throw a `TypeError` — the parse is not total in the entry
contents. -/
theorem C3_counterexample :
    droppedEntry (some throwingEspnEvent) = false
    ∧ nflParse parseIsoTimestamp formatInstantLA
        (some { events := some [some throwingEspnEvent] }) =
      .error "TypeError: cannot read 0 of undefined"
    ∧ mlbParse parseIsoTimestamp formatInstantLA
        (some { events := some [some throwingEspnEvent] }) =
      .error "TypeError: cannot read 0 of undefined" :=
  ⟨by decide, rfl, rfl⟩

theorem C3_witness :
    (∃ l, nflParse parseIsoTimestamp formatInstantLA
        (some { events := some espnSampleEntries }) = .ok l ∧
      l.length = (espnSampleEntries.filter (wellFormedEntry parseIsoTimestamp)).length)
    ∧ (∃ l, nbaParse parseIsoTimestamp formatInstantLA
        (some { events := some espnSampleEntries }) = .ok l ∧
      l.length = (espnSampleEntries.filter (wellFormedEntry parseIsoTimestamp)).length)
    ∧ (∃ l, mlbParse parseIsoTimestamp formatInstantLA
        (some { events := some espnSampleEntries }) = .ok l ∧
      l.length = (espnSampleEntries.filter (wellFormedEntry parseIsoTimestamp)).length) :=
  C3_parse_drops_and_counts parseIsoTimestamp formatInstantLA espnSampleEntries (by decide)

/-! ### Claim C7 -/

/-- C7: `sortEvents` returns a permutation of its input that is sorted
ascending by the `(league, date, time)` key under the string comparator and
is stable — events equal on all three fields keep their original relative
order (the filter at any fixed key is unchanged).  On the claim's example
the output order is MLB/2025-01-01, NBA/2025-01-01, NBA/2025-01-02. -/
theorem C7_sortEvents_sorted_stable {α : Type} (sc : String → String → Int)
    (league date time : α → String) (h : LocaleCmp sc) (events : List α) :
    List.Perm (sortEvents sc league date time events) events
    ∧ (sortEvents sc league date time events).Pairwise (eventLe sc league date time)
    ∧ (∀ l d t : String,
        (sortEvents sc league date time events).filter
            (fun e => league e == l && date e == d && time e == t) =
          events.filter (fun e => league e == l && date e == d && time e == t))
    ∧ sortEvents lcAscii StoredEvent.league StoredEvent.date StoredEvent.time
        [evSortA, evSortB, evSortC] = [evSortC, evSortB, evSortA] :=
  ⟨sortEvents_perm sc league date time events,
   sortEvents_sorted h events,
   fun l d t => sortEvents_filter_key h events l d t,
   by decide⟩

theorem C7_witness :
    List.Perm (sortEvents lcAscii StoredEvent.league StoredEvent.date StoredEvent.time
      [evSortA, evSortB, evSortC]) [evSortA, evSortB, evSortC]
    ∧ (sortEvents lcAscii StoredEvent.league StoredEvent.date StoredEvent.time
        [evSortA, evSortB, evSortC]).Pairwise
        (eventLe lcAscii StoredEvent.league StoredEvent.date StoredEvent.time)
    ∧ (∀ l d t : String,
        (sortEvents lcAscii StoredEvent.league StoredEvent.date StoredEvent.time
            [evSortA, evSortB, evSortC]).filter
            (fun e => e.league == l && e.date == d && e.time == t) =
          [evSortA, evSortB, evSortC].filter
            (fun e => e.league == l && e.date == d && e.time == t))
    ∧ sortEvents lcAscii StoredEvent.league StoredEvent.date StoredEvent.time
        [evSortA, evSortB, evSortC] = [evSortC, evSortB, evSortA] :=
  C7_sortEvents_sorted_stable lcAscii StoredEvent.league StoredEvent.date StoredEvent.time
    lcAscii_laws [evSortA, evSortB, evSortC]

/-! ### Claim C2 -/

/-- C2 (amended): the replace-policy merge leaves the subsequence of events
of other leagues exactly as it was — field-for-field identical and in the
same relative order.  (The upsert-and-expire merge does not: it matches by
`id` alone across leagues and expires other-league events — see the
counterexample.) -/
theorem C2_replace_isolates_other_leagues {α : Type} (league : α → String)
    (leagueId : String) (events fresh : List α)
    (hfresh : ∀ f ∈ fresh, league f = leagueId) :
    (mergeReplace league leagueId events fresh).filter (fun e => league e != leagueId) =
      events.filter (fun e => league e != leagueId) :=
  mergeReplace_other_leagues league leagueId events fresh hfresh

/-- C2 counterexample: under the upsert-and-expire merge, fresh NBA data
whose event id equals a persisted NFL event's id overwrites the NFL event —
another league's entry is modified (in fact replaced). -/
theorem C2_counterexample :
    mergeUpsertExpire (fun _ => none) 0 StoredEvent.id StoredEvent.date StoredEvent.time
        [nflStored] [nbaFreshEvent] = [nbaFreshEvent]
    ∧ (mergeUpsertExpire (fun _ => none) 0 StoredEvent.id StoredEvent.date StoredEvent.time
        [nflStored] [nbaFreshEvent]).filter (fun e => e.league != "NBA") = []
    ∧ [nflStored].filter (fun e => e.league != "NBA") = [nflStored] := by
  refine ⟨?_, ?_, ?_⟩ <;> decide

theorem C2_witness :
    (mergeReplace StoredEvent.league "NBA" [nflStored] [nbaFreshOther]).filter
        (fun e => e.league != "NBA") =
      [nflStored].filter (fun e => e.league != "NBA") :=
  C2_replace_isolates_other_leagues StoredEvent.league "NBA" [nflStored] [nbaFreshOther]
    (by decide)

/-! ### Claim C8 -/

/-- C8 (amended): the replace-policy merge is idempotent — merging the same
fresh result set twice equals merging it once — and, when the starting
document has unique `(league, id)` pairs and the fresh events (all of the
processed league) have unique ids, the merged document again has exactly one
entry per `(league, id)` pair.  (The upsert merge matches by `id` alone and
can duplicate a `(league, id)` pair on a cross-league id collision — see the
counterexample.) -/
theorem C8_replace_merge_idempotent {α : Type} (league eid : α → String)
    (leagueId : String) (events fresh : List α)
    (hdoc : (events.map (fun e => (league e, eid e))).Nodup)
    (hfresh : ∀ f ∈ fresh, league f = leagueId)
    (hids : (fresh.map eid).Nodup) :
    mergeReplace league leagueId (mergeReplace league leagueId events fresh) fresh =
      mergeReplace league leagueId events fresh
    ∧ ((mergeReplace league leagueId events fresh).map
        (fun e => (league e, eid e))).Nodup :=
  ⟨mergeReplace_idem league leagueId events fresh hfresh,
   mergeReplace_key_nodup league eid leagueId events fresh hdoc hfresh hids⟩

/-- C8 counterexample: under the upsert-and-expire merge, with a document
holding distinct `(NFL, 1)` and `(NBA, 1)` entries and fresh NBA data with
the (unique-within-league) id `1`, merging the same fresh set twice yields
two entries with the pair `(NBA, 1)`. -/
theorem C8_counterexample :
    ([nflStored, nbaStored].map (fun e => (e.league, e.id))).Nodup
    ∧ ([nbaFreshEvent].map StoredEvent.id).Nodup
    ∧ mergeUpsertExpire (fun _ => none) 0 StoredEvent.id StoredEvent.date StoredEvent.time
        (mergeUpsertExpire (fun _ => none) 0 StoredEvent.id StoredEvent.date
          StoredEvent.time [nflStored, nbaStored] [nbaFreshEvent]) [nbaFreshEvent] =
      [nbaFreshEvent, nbaStored]
    ∧ ¬ ([nbaFreshEvent, nbaStored].map (fun e => (e.league, e.id))).Nodup := by
  refine ⟨?_, ?_, ?_, ?_⟩ <;> decide

theorem C8_witness :
    mergeReplace StoredEvent.league "NBA"
        (mergeReplace StoredEvent.league "NBA" [nflStored, nbaStored] [nbaFreshOther])
        [nbaFreshOther] =
      mergeReplace StoredEvent.league "NBA" [nflStored, nbaStored] [nbaFreshOther]
    ∧ ((mergeReplace StoredEvent.league "NBA" [nflStored, nbaStored] [nbaFreshOther]).map
        (fun e => (e.league, e.id))).Nodup :=
  C8_replace_merge_idempotent StoredEvent.league StoredEvent.id "NBA"
    [nflStored, nbaStored] [nbaFreshOther] (by decide) (by decide) (by decide)

/-! ### Claim C9 -/

/-- C9: `initializeDataFile` never fails the run on a missing file — it
returns the empty document and immediately persists its serialization, and
this happens during load, before any fetch or merge (third conjunct: even
when everything after the load fails, the initial shape is on disk); a file
that exists and parses is returned as is, unwritten. -/
theorem C9_initializeDataFile {α : Type} (jsonParse : String → Option (List α)) :
    initializeDataFile jsonParse none = (some emptyDocJson, ([] : List α))
    ∧ (∀ contents evs, jsonParse contents = some evs →
        initializeDataFile jsonParse (some contents) = (some contents, evs))
    ∧ (∀ (serialize : List α → String) (sc : String → String → Int)
        (league date time : α → String) (leagueId msg : String),
        runNflScript jsonParse serialize sc league date time leagueId (.error msg) none =
          (some emptyDocJson, false)) := by
  refine ⟨rfl, ?_, ?_⟩
  · intro contents evs hp
    have he : initializeDataFile jsonParse (some contents) =
        (match jsonParse contents with
         | some evs => (some contents, evs)
         | none => (some emptyDocJson, [])) := rfl
    rw [he, hp]
  · intro serialize sc league date time leagueId msg
    rfl

theorem C9_witness :
    initializeDataFile sampleJsonParse none = (some emptyDocJson, [])
    ∧ initializeDataFile sampleJsonParse (some sampleDocJson) =
      (some sampleDocJson, [sampleSdbEvent])
    ∧ runNflScript sampleJsonParse serializeSdbDocument lcAscii SdbEvent.league
        SdbEvent.date SdbEvent.time "NFL" (.error "network error") none =
      (some emptyDocJson, false) :=
  ⟨(C9_initializeDataFile sampleJsonParse).1,
   (C9_initializeDataFile sampleJsonParse).2.1 sampleDocJson [sampleSdbEvent] (by decide),
   (C9_initializeDataFile sampleJsonParse).2.2 serializeSdbDocument lcAscii
     SdbEvent.league SdbEvent.date SdbEvent.time "NFL" "network error"⟩

/-! ### Claim C1 -/

/-- C1 (amended): in the single-endpoint parser variant, an upstream fetch
failure (network error, non-2xx, parser throw, or non-array parse result)
reaches the outer handler before the merge: with a pre-existing parseable
document, the file is left byte-for-byte unchanged and the process exits
non-zero.  In the day-windowed `script.js` variant this does not hold: a
failing fetch degrades to an empty contribution, the run continues, rewrites
the file — dropping the requested league's persisted events — and exits
zero (see the counterexample). -/
theorem C1_single_endpoint_fetch_failure_aborts {α : Type}
    (jsonParse : String → Option (List α)) (serialize : List α → String)
    (sc : String → String → Int) (league date time : α → String)
    (leagueId msg contents : String) (evs : List α)
    (hparse : jsonParse contents = some evs) :
    runNflScript jsonParse serialize sc league date time leagueId (.error msg)
        (some contents) = (some contents, false) := by
  have he : runNflScript jsonParse serialize sc league date time leagueId (.error msg)
      (some contents) = ((initializeDataFile jsonParse (some contents)).1, false) := rfl
  have h2 : initializeDataFile jsonParse (some contents) = (some contents, evs) := by
    have he2 : initializeDataFile jsonParse (some contents) =
        (match jsonParse contents with
         | some evs => (some contents, evs)
         | none => (some emptyDocJson, [])) := rfl
    rw [he2, hparse]
  rw [he, h2]

/-- C1 counterexample: in `script.js`, a run whose three day-window fetches
all fail with network errors still rewrites the document (the pre-existing
NFL event is gone) and reports success (exit 0). -/
theorem C1_counterexample :
    runScriptJs sampleJsonParse parseIsoTimestamp formatInstantLA lcAscii "NFL"
        [.errorObj "network error", .errorObj "network error", .errorObj "network error"]
        (some sampleDocJson) = (some emptyDocJson, true)
    ∧ emptyDocJson ≠ sampleDocJson := by
  constructor <;> decide

theorem C1_witness :
    runNflScript sampleJsonParse serializeSdbDocument lcAscii SdbEvent.league
        SdbEvent.date SdbEvent.time "NFL" (.error "network error") (some sampleDocJson) =
      (some sampleDocJson, false) :=
  C1_single_endpoint_fetch_failure_aborts sampleJsonParse serializeSdbDocument lcAscii
    SdbEvent.league SdbEvent.date SdbEvent.time "NFL" "network error" sampleDocJson
    [sampleSdbEvent] (by decide)

end SportsApi
